import Mathlib

/-!
Verification development for the `emergent` decision-making engine.

Shallow embedding of the decision makers in `src/src` (and, where a claim
refers to it, `src/crates/emergent/src`) of the repository:

* `Task` lifecycle records model the Rust `Task` trait; task-internal
  mutable state is folded into the caller-owned memory `M`, since both are
  caller-visible mutable data threaded by reference through every call.
* Conditions are `M → Bool`, considerations are `M → Scalar`; the Rust
  `Scalar` (`f32`/`f64`) is modelled by `ℚ` so that arithmetic on edge
  weights and path costs is exact and decidable.
* Rust `HashMap`s are modelled by association lists (`List (K × V)`) with
  first-match lookup; `HashSet`s of fact ids by `Finset`.
* Rust `Iterator::max_by` returns the last maximal element and
  `Iterator::min_by` the first minimal element; both are modelled exactly.
* Panics (`.unwrap()` on `None`) are modelled by `Option`-valued results
  where a claim is about them (`Reasoner.process`), and by default values
  at lookups that validated constructors make impossible elsewhere.
-/

namespace Emergent

/-- Rust `Scalar` (`f32`/`f64`), modelled as `ℚ`. -/
abbrev Scalar := ℚ

/-- The `Task` lifecycle trait (src/src/task.rs): `is_locked`, `on_enter`,
`on_exit`, `on_update`, `on_process`. Task-internal state is folded into
the memory `M`. -/
structure Task (M : Type) where
  isLocked : M → Bool
  onEnter : M → M
  onExit : M → M
  onUpdate : M → M
  onProcess : M → M × Bool

/-- `NoTask` / the default `Task` impl: every hook a no-op, never locked,
`on_process` returns `false`. -/
def Task.noop (M : Type) : Task M :=
  { isLocked := fun _ => false
    onEnter := id
    onExit := id
    onUpdate := id
    onProcess := fun m => (m, false) }

/-- First-match association-list lookup, modelling `HashMap::get`. -/
def alookup {K V : Type} [DecidableEq K] : List (K × V) → K → Option V
  | [], _ => none
  | (k, v) :: rest, key => if k = key then some v else alookup rest key

theorem alookup_nil {K V : Type} [DecidableEq K] (k : K) :
    alookup ([] : List (K × V)) k = none := rfl

theorem alookup_cons {K V : Type} [DecidableEq K] (k key : K) (v : V) (rest : List (K × V)) :
    alookup ((k, v) :: rest) key = if k = key then some v else alookup rest key := rfl

theorem mem_of_alookup_eq_some {K V : Type} [DecidableEq K] {l : List (K × V)} {k : K} {v : V}
    (h : alookup l k = some v) : (k, v) ∈ l := by
  induction l with
  | nil => simp [alookup] at h
  | cons p rest ih =>
    obtain ⟨k1, v1⟩ := p
    rw [alookup_cons] at h
    by_cases hk : k1 = k
    · simp [hk] at h
      simp [hk, h]
    · simp [hk] at h
      exact List.mem_cons_of_mem _ (ih h)

theorem alookup_eq_some_of_mem {K V : Type} [DecidableEq K] {l : List (K × V)}
    (hnd : (l.map Prod.fst).Nodup) {k : K} {v : V} (h : (k, v) ∈ l) :
    alookup l k = some v := by
  induction l with
  | nil => simp at h
  | cons p rest ih =>
    obtain ⟨k1, v1⟩ := p
    simp only [List.map_cons, List.nodup_cons] at hnd
    rcases List.mem_cons.mp h with heq | hmem
    · cases heq
      simp [alookup_cons]
    · have hk : k1 ≠ k := by
        intro hk
        subst hk
        exact hnd.1 (List.mem_map.mpr ⟨(k1, v), hmem, rfl⟩)
      rw [alookup_cons, if_neg hk]
      exact ih hnd.2 hmem

theorem alookup_isSome_of_mem {K V : Type} [DecidableEq K] {l : List (K × V)} {k : K} {v : V}
    (h : (k, v) ∈ l) : (alookup l k).isSome := by
  induction l with
  | nil => simp at h
  | cons p rest ih =>
    obtain ⟨k1, v1⟩ := p
    rw [alookup_cons]
    by_cases hk : k1 = k
    · simp [hk]
    · simp only [if_neg hk]
      rcases List.mem_cons.mp h with heq | hmem
      · cases heq; simp at hk
      · exact ih hmem

/-! ### Machinery (src/src/decision_makers/machinery.rs) -/

/-- `MachineryError` (machinery.rs line 4). -/
inductive MachineryError (K : Type) where
  | StateDoesNotExists (key : K)
deriving DecidableEq

/-- `MachineryChange`: a guarded transition; `target` is the Rust field `to`
(a reserved token in Lean). -/
structure MachineryChange (M K : Type) where
  target : K
  condition : M → Bool

/-- `MachineryState`: one task plus an ordered guard list. -/
structure MachineryState (M K : Type) where
  task : Task M
  changes : List (MachineryChange M K)

/-- Placeholder state used to model `.unwrap()` at lookups that reachable
machinery states make impossible (the active id is always a key). -/
def MachineryState.defaultState (M K : Type) : MachineryState M K :=
  { task := Task.noop M, changes := [] }

/-- `Machinery`: states map plus the active state id. -/
structure Machinery (M K : Type) where
  states : List (K × MachineryState M K)
  activeState : Option K

/-- The tail of `Machinery::change_active_state` after the existence check
(machinery.rs lines 128-139): lock check, exit old, enter new, set active. -/
def Machinery.performChange {M K : Type} [DecidableEq K] (mc : Machinery M K) (id : Option K)
    (m : M) (forced : Bool) : Except (MachineryError K) (Machinery M K × M × Bool) :=
  match mc.activeState with
  | some aid =>
    let st := (alookup mc.states aid).getD (MachineryState.defaultState M K)
    if !forced && st.task.isLocked m then .ok (mc, m, false)
    else
      let m1 := st.task.onExit m
      let m2 := match id with
        | some i => ((alookup mc.states i).getD (MachineryState.defaultState M K)).task.onEnter m1
        | none => m1
      .ok ({ mc with activeState := id }, m2, true)
  | none =>
    let m2 := match id with
      | some i => ((alookup mc.states i).getD (MachineryState.defaultState M K)).task.onEnter m
      | none => m
    .ok ({ mc with activeState := id }, m2, true)

/-- `Machinery::change_active_state` (machinery.rs lines 114-140). -/
def Machinery.changeActiveState {M K : Type} [DecidableEq K] (mc : Machinery M K)
    (id : Option K) (m : M) (forced : Bool) :
    Except (MachineryError K) (Machinery M K × M × Bool) :=
  if id = mc.activeState then .ok (mc, m, false)
  else
    match id with
    | some i =>
      match alookup mc.states i with
      | none => .error (.StateDoesNotExists i)
      | some _ => mc.performChange (some i) m forced
    | none => mc.performChange none m forced

/-- The trailing delegation block of `Machinery::process`
(machinery.rs lines 163-166): run `on_process` of the active task. -/
def Machinery.delegate {M K : Type} [DecidableEq K] (mc : Machinery M K) (m : M) :
    Machinery M K × M × Bool :=
  match mc.activeState with
  | some aid =>
    let st := (alookup mc.states aid).getD (MachineryState.defaultState M K)
    let r := st.task.onProcess m
    (mc, r.1, r.2)
  | none => (mc, m, false)

/-- `Machinery::process` (machinery.rs lines 142-167): the first validating
guard of the active state selects the transition target; a failed or
refused change falls through to delegation. -/
def Machinery.process {M K : Type} [DecidableEq K] (mc : Machinery M K) (m : M) :
    Machinery M K × M × Bool :=
  let attempt : Except (MachineryError K) (Machinery M K × M × Bool) :=
    match mc.activeState with
    | some aid =>
      match alookup mc.states aid with
      | some st =>
        match st.changes.find? (fun c => c.condition m) with
        | some c => mc.changeActiveState (some c.target) m false
        | none => .ok (mc, m, false)
      | none => .ok (mc, m, false)
    | none => .ok (mc, m, false)
  match attempt with
  | .ok (mc1, m1, true) => (mc1, m1, true)
  | .ok (mc1, m1, false) => mc1.delegate m1
  | .error _ => mc.delegate m

/-- `Machinery::update` (machinery.rs lines 169-173). -/
def Machinery.update {M K : Type} [DecidableEq K] (mc : Machinery M K) (m : M) :
    Machinery M K × M :=
  match mc.activeState with
  | some aid =>
    (mc, ((alookup mc.states aid).getD (MachineryState.defaultState M K)).task.onUpdate m)
  | none => (mc, m)

/-- `<Machinery as Task>::on_enter` (machinery.rs lines 203-205): forced
deactivation; the src/src machinery has no initial-state decision maker. -/
def Machinery.onEnter {M K : Type} [DecidableEq K] (mc : Machinery M K) (m : M) :
    Machinery M K × M :=
  match mc.changeActiveState none m true with
  | .ok (mc1, m1, _) => (mc1, m1)
  | .error _ => (mc, m)

/-- `<Machinery as Task>::on_exit` (machinery.rs lines 207-209). -/
def Machinery.onExit {M K : Type} [DecidableEq K] (mc : Machinery M K) (m : M) :
    Machinery M K × M :=
  match mc.changeActiveState none m true with
  | .ok (mc1, m1, _) => (mc1, m1)
  | .error _ => (mc, m)

/-- One lifecycle call of the kinds a parent decider issues to a nested
sub-task (claim C10 quantifies over sequences of these). -/
inductive LifeCall where
  | enter
  | update
  | proc
deriving DecidableEq

/-- Drive a machinery through a sequence of `on_enter` / `on_update` /
`on_process` lifecycle calls, threading the memory. -/
def Machinery.runCalls {M K : Type} [DecidableEq K] (mc : Machinery M K) (m : M) :
    List LifeCall → Machinery M K × M
  | [] => (mc, m)
  | c :: rest =>
    let r : Machinery M K × M :=
      match c with
      | .enter => mc.onEnter m
      | .update => mc.update m
      | .proc =>
        let q := mc.process m
        (q.1, q.2.1)
    Machinery.runCalls r.1 r.2 rest

/-! ### Reasoner (src/src/decision_makers/reasoner.rs) -/

/-- `ReasonerError` (reasoner.rs line 7). -/
inductive ReasonerError (K : Type) where
  | StateDoesNotExists (key : K)
deriving DecidableEq

/-- `ReasonerState`: a consideration and a task. -/
structure ReasonerState (M : Type) where
  consideration : M → Scalar
  task : Task M

/-- Placeholder reasoner state for lookups that reachable reasoners make
impossible (the active id is always a key). -/
def ReasonerState.defaultState (M : Type) : ReasonerState M :=
  { consideration := fun _ => 0, task := Task.noop M }

/-- Rust `Iterator::max_by` over `(key, score)` pairs: of several equally
maximal scores the LAST key wins (the fold replaces the accumulator on
`Ordering::Less` and on `Ordering::Equal`). -/
def maxByLastGo {K B : Type} [LinearOrder B] : List (K × B) → K → B → K
  | [], best, _ => best
  | (k, s) :: rest, best, bs =>
    if bs ≤ s then maxByLastGo rest k s else maxByLastGo rest best bs

/-- Rust `Iterator::max_by`, returning `none` exactly on the empty list. -/
def maxByLast {K B : Type} [LinearOrder B] : List (K × B) → Option K
  | [] => none
  | (k, s) :: rest => some (maxByLastGo rest k s)

/-- `Reasoner`. -/
structure Reasoner (M K : Type) where
  states : List (K × ReasonerState M)
  activeState : Option K

/-- The tail of `Reasoner::change_active_state` after the existence check
(reasoner.rs lines 155-166). -/
def Reasoner.performChange {M K : Type} [DecidableEq K] (r : Reasoner M K) (id : Option K)
    (m : M) (forced : Bool) : Except (ReasonerError K) (Reasoner M K × M × Bool) :=
  match r.activeState with
  | some aid =>
    let st := (alookup r.states aid).getD (ReasonerState.defaultState M)
    if !forced && st.task.isLocked m then .ok (r, m, false)
    else
      let m1 := st.task.onExit m
      let m2 := match id with
        | some i => ((alookup r.states i).getD (ReasonerState.defaultState M)).task.onEnter m1
        | none => m1
      .ok ({ r with activeState := id }, m2, true)
  | none =>
    let m2 := match id with
      | some i => ((alookup r.states i).getD (ReasonerState.defaultState M)).task.onEnter m
      | none => m
    .ok ({ r with activeState := id }, m2, true)

/-- `Reasoner::change_active_state` (reasoner.rs lines 141-167). -/
def Reasoner.changeActiveState {M K : Type} [DecidableEq K] (r : Reasoner M K)
    (id : Option K) (m : M) (forced : Bool) :
    Except (ReasonerError K) (Reasoner M K × M × Bool) :=
  if id = r.activeState then .ok (r, m, false)
  else
    match id with
    | some i =>
      match alookup r.states i with
      | none => .error (.StateDoesNotExists i)
      | some _ => r.performChange (some i) m forced
    | none => r.performChange none m forced

/-- The trailing delegation block of `Reasoner::process` (lines 182-185). -/
def Reasoner.delegate {M K : Type} [DecidableEq K] (r : Reasoner M K) (m : M) :
    Reasoner M K × M × Bool :=
  match r.activeState with
  | some aid =>
    let st := (alookup r.states aid).getD (ReasonerState.defaultState M)
    let q := st.task.onProcess m
    (r, q.1, q.2)
  | none => (r, m, false)

/-- `Reasoner::process` (src/src reasoner.rs lines 170-186). The result is
`none` exactly when the Rust code panics: with an empty state set,
`.max_by(..)` yields `None` and the source calls `.unwrap()` on it. -/
def Reasoner.process {M K : Type} [DecidableEq K] (r : Reasoner M K) (m : M) :
    Option (Reasoner M K × M × Bool) :=
  match maxByLast (r.states.map (fun p => (p.1, p.2.consideration m))) with
  | none => none
  | some newId =>
    some (match r.changeActiveState (some newId) m false with
      | .ok (r1, m1, true) => (r1, m1, true)
      | .ok (r1, m1, false) => r1.delegate m1
      | .error _ => r.delegate m)

/-- The crates/emergent reasoner, whose `process` guards the empty state
set and picks the winner through a pluggable state selector
(src/crates/emergent/src/decision_makers/reasoner.rs lines 242-261).
The selector is modelled as a pure function of memory and scored ids. -/
structure ReasonerV2 (M K : Type) where
  states : List (K × ReasonerState M)
  stateSelector : M → List (K × Scalar) → Option K
  activeState : Option K

/-- The tail of the crates/emergent `Reasoner::change_active_state` after
the existence check (identical control flow to src/src). -/
def ReasonerV2.performChange {M K : Type} [DecidableEq K] (r : ReasonerV2 M K) (id : Option K)
    (m : M) (forced : Bool) : Except (ReasonerError K) (ReasonerV2 M K × M × Bool) :=
  match r.activeState with
  | some aid =>
    let st := (alookup r.states aid).getD (ReasonerState.defaultState M)
    if !forced && st.task.isLocked m then .ok (r, m, false)
    else
      let m1 := st.task.onExit m
      let m2 := match id with
        | some i => ((alookup r.states i).getD (ReasonerState.defaultState M)).task.onEnter m1
        | none => m1
      .ok ({ r with activeState := id }, m2, true)
  | none =>
    let m2 := match id with
      | some i => ((alookup r.states i).getD (ReasonerState.defaultState M)).task.onEnter m
      | none => m
    .ok ({ r with activeState := id }, m2, true)

/-- The crates/emergent `Reasoner::change_active_state`. -/
def ReasonerV2.changeActiveState {M K : Type} [DecidableEq K] (r : ReasonerV2 M K)
    (id : Option K) (m : M) (forced : Bool) :
    Except (ReasonerError K) (ReasonerV2 M K × M × Bool) :=
  if id = r.activeState then .ok (r, m, false)
  else
    match id with
    | some i =>
      match alookup r.states i with
      | none => .error (.StateDoesNotExists i)
      | some _ => r.performChange (some i) m forced
    | none => r.performChange none m forced

/-- Delegation block of the crates/emergent `Reasoner::process`. -/
def ReasonerV2.delegate {M K : Type} [DecidableEq K] (r : ReasonerV2 M K) (m : M) :
    ReasonerV2 M K × M × Bool :=
  match r.activeState with
  | some aid =>
    let st := (alookup r.states aid).getD (ReasonerState.defaultState M)
    let q := st.task.onProcess m
    (r, q.1, q.2)
  | none => (r, m, false)

/-- The crates/emergent `Reasoner::process` (lines 242-261): returns
`false` outright on an empty state set or when the selector declines. -/
def ReasonerV2.process {M K : Type} [DecidableEq K] (r : ReasonerV2 M K) (m : M) :
    ReasonerV2 M K × M × Bool :=
  if r.states.isEmpty then (r, m, false)
  else
    let scoredIds := r.states.map (fun p => (p.1, p.2.consideration m))
    match r.stateSelector m scoredIds with
    | none => (r, m, false)
    | some newId =>
      match r.changeActiveState (some newId) m false with
      | .ok (r1, m1, true) => (r1, m1, true)
      | .ok (r1, m1, false) => r1.delegate m1
      | .error _ => r.delegate m

/-! ### Selector (src/src/decision_makers/selector.rs) -/

/-- `SelectorError` (selector.rs line 7). -/
inductive SelectorError (K : Type) where
  | StateDoesNotExists (key : K)
deriving DecidableEq

/-- `SelectorState`: a condition and a task. -/
structure SelectorState (M : Type) where
  condition : M → Bool
  task : Task M

/-- Placeholder selector state for lookups that reachable selectors make
impossible (the active id is always a key). -/
def SelectorState.defaultState (M : Type) : SelectorState M :=
  { condition := fun _ => false, task := Task.noop M }

/-- `Selector`; the pluggable `SelectorStatePicker` is modelled as a pure
function from the available ids and memory to at most one winner. -/
structure Selector (M K : Type) where
  statePicker : List K → M → Option K
  states : List (K × SelectorState M)
  activeState : Option K

/-- The tail of `Selector::change_active_state` after the existence check
(selector.rs lines 176-187). -/
def Selector.performChange {M K : Type} [DecidableEq K] (s : Selector M K) (id : Option K)
    (m : M) (forced : Bool) : Except (SelectorError K) (Selector M K × M × Bool) :=
  match s.activeState with
  | some aid =>
    let st := (alookup s.states aid).getD (SelectorState.defaultState M)
    if !forced && st.task.isLocked m then .ok (s, m, false)
    else
      let m1 := st.task.onExit m
      let m2 := match id with
        | some i => ((alookup s.states i).getD (SelectorState.defaultState M)).task.onEnter m1
        | none => m1
      .ok ({ s with activeState := id }, m2, true)
  | none =>
    let m2 := match id with
      | some i => ((alookup s.states i).getD (SelectorState.defaultState M)).task.onEnter m
      | none => m
    .ok ({ s with activeState := id }, m2, true)

/-- `Selector::change_active_state` (selector.rs lines 162-188). -/
def Selector.changeActiveState {M K : Type} [DecidableEq K] (s : Selector M K)
    (id : Option K) (m : M) (forced : Bool) :
    Except (SelectorError K) (Selector M K × M × Bool) :=
  if id = s.activeState then .ok (s, m, false)
  else
    match id with
    | some i =>
      match alookup s.states i with
      | none => .error (.StateDoesNotExists i)
      | some _ => s.performChange (some i) m forced
    | none => s.performChange none m forced

/-- The trailing delegation block of `Selector::process` (lines 206-209). -/
def Selector.delegate {M K : Type} [DecidableEq K] (s : Selector M K) (m : M) :
    Selector M K × M × Bool :=
  match s.activeState with
  | some aid =>
    let st := (alookup s.states aid).getD (SelectorState.defaultState M)
    let q := st.task.onProcess m
    (s, q.1, q.2)
  | none => (s, m, false)

/-- `Selector::process` (selector.rs lines 191-210). -/
def Selector.process {M K : Type} [DecidableEq K] (s : Selector M K) (m : M) :
    Selector M K × M × Bool :=
  let available := (s.states.filter (fun p => p.2.condition m)).map (fun p => p.1)
  let newId := if available.isEmpty then none else s.statePicker available m
  match s.changeActiveState newId m false with
  | .ok (s1, m1, true) => (s1, m1, true)
  | .ok (s1, m1, false) => s1.delegate m1
  | .error _ => s.delegate m

/-! ### Sequencer (src/src/decision_makers/sequencer.rs) -/

/-- `SequencerState`: a condition and a task. -/
structure SequencerState (M : Type) where
  condition : M → Bool
  task : Task M

/-- Placeholder sequencer state for lookups that reachable sequencers make
impossible (the active index is always in range). -/
def SequencerState.defaultState (M : Type) : SequencerState M :=
  { condition := fun _ => false, task := Task.noop M }

/-- `Sequencer`. -/
structure Sequencer (M : Type) where
  states : List (SequencerState M)
  activeIndex : Option Nat
  looped : Bool
  continuity : Bool

/-- The next-index computation of `Sequencer::process` (sequencer.rs lines
75-125), evaluated after the active task has been exited.
`cycle().skip(index+1).take(len)` visits `(index+1+j) % len` for
`j < len`; `cycle().nth(index+1)` is `(index+1) % len`; the non-looped
variants stop at the end of the list. -/
def Sequencer.nextIndex {M : Type} (s : Sequencer M) (index : Nat) (m : M) : Option Nat :=
  let len := s.states.length
  let condAt := fun i => (s.states.getD i (SequencerState.defaultState M)).condition m
  if s.looped then
    if s.continuity then
      ((List.range len).map (fun j => (index + 1 + j) % len)).find? condAt
    else
      let i := (index + 1) % len
      if condAt i then some i else none
  else
    if s.continuity then
      ((List.range len).drop (index + 1)).find? condAt
    else
      if index + 1 < len then (if condAt (index + 1) then some (index + 1) else none)
      else none

/-- `Sequencer::process` (sequencer.rs lines 66-146). A locked active
state returns `false` at once; otherwise the active task is exited and
the next satisfied state (per loop/continuity flags) entered. The
trailing `on_process` delegation block (lines 142-144) is reachable only
with no active index, where it returns `false`. -/
def Sequencer.process {M : Type} (s : Sequencer M) (m : M) : Sequencer M × M × Bool :=
  if s.states.isEmpty then (s, m, false)
  else
    match s.activeIndex with
    | some index =>
      let st := s.states.getD index (SequencerState.defaultState M)
      if st.task.isLocked m then (s, m, false)
      else
        let m1 := st.task.onExit m
        match s.nextIndex index m1 with
        | some i =>
          let m2 := (s.states.getD i (SequencerState.defaultState M)).task.onEnter m1
          ({ s with activeIndex := some i }, m2, true)
        | none => ({ s with activeIndex := none }, m1, true)
    | none =>
      match s.states.findIdx? (fun st => st.condition m) with
      | some i =>
        let m1 := (s.states.getD i (SequencerState.defaultState M)).task.onEnter m
        ({ s with activeIndex := some i }, m1, true)
      | none => (s, m, false)

/-! ### Planner (src/src/decision_makers/planner.rs) -/

/-- `PlannerError` (planner.rs lines 10-17). -/
inductive PlannerError (CK AK : Type) where
  | ConditionDoesNotExists (key : CK)
  | ConditionIsNeverUsed (key : CK)
  | ActionDoesNotExists (key : AK)
deriving DecidableEq

/-- `PlannerAction` (planner.rs lines 78-86): precondition and
postcondition fact-id sets, a cost consideration, and a task. -/
structure PlannerAction (M CK : Type) where
  preconditions : Finset CK
  postconditions : Finset CK
  cost : M → Scalar
  task : Task M

/-- Placeholder action for lookups that validated planners make
impossible (plan entries and checked goal ids are always keys). -/
def PlannerAction.defaultAction (M CK : Type) : PlannerAction M CK :=
  { preconditions := ∅, postconditions := ∅, cost := fun _ => 0, task := Task.noop M }

/-- `conditions.get(id).unwrap().validate(memory)`; an absent id (which
the validated constructor rules out) validates as `false`. -/
def condValidate {M CK : Type} [DecidableEq CK] (conditions : List (CK × (M → Bool)))
    (id : CK) (m : M) : Bool :=
  match alookup conditions id with
  | some c => c m
  | none => false

/-- `PlannerAction::score_preconditions` (planner.rs lines 128-137): the
number of currently satisfied preconditions. -/
def PlannerAction.scorePreconditions {M CK : Type} [DecidableEq CK] (a : PlannerAction M CK)
    (conditions : List (CK × (M → Bool))) (m : M) : Nat :=
  (a.preconditions.filter (fun id => condValidate conditions id m = true)).card

/-- `PlannerAction::validate_preconditions` (planner.rs lines 139-147). -/
def PlannerAction.validatePreconditions {M CK : Type} [DecidableEq CK] (a : PlannerAction M CK)
    (conditions : List (CK × (M → Bool))) (m : M) : Bool :=
  decide (∀ id ∈ a.preconditions, condValidate conditions id m = true)

/-- `PlannerAction::validate_postconditions` (planner.rs lines 149-157). -/
def PlannerAction.validatePostconditions {M CK : Type} [DecidableEq CK] (a : PlannerAction M CK)
    (conditions : List (CK × (M → Bool))) (m : M) : Bool :=
  decide (∀ id ∈ a.postconditions, condValidate conditions id m = true)

/-- The goal-selecting `DecisionMaker` slot of the planner. Its mutable
trait-object state is made explicit as a value of type `S` threaded
through `decide` and `change_mind`. -/
structure GoalSelector (S M K : Type) where
  decide : S → M → S × M × Option K
  changeMind : S → Option K → M → S × M × Bool

/-- `Planner` (planner.rs lines 160-170), plus `searches`, a verification
ghost counting how many times the best-first search loop of `find_plan`
has started (spec section 8 asks for plan stability to be "verifiable by
counting search invocations"); no source field corresponds to it and no
code path reads it. -/
structure Planner (M CK AK S : Type) where
  conditions : List (CK × (M → Bool))
  actions : List (AK × PlannerAction M CK)
  connections : List (AK × AK × Scalar)
  goalSelector : GoalSelector S M AK
  gsState : S
  plan : Option (Nat × List AK)
  searches : Nat

/-- The connection derivation of `Planner::new_unchecked` (src/src
planner.rs lines 229-245; identically `new_unchecked_raw` in
crates/emergent planner.rs lines 413-429): for EVERY ordered pair of
actions `(a, b)` — the iteration does not skip `a = b` — with
`count = |a.post ∩ b.pre|` and `limit = min |a.post| |b.post|`, exact
mode emits weight `1` when `count = limit`, partial mode emits weight
`limit / count` when `count > 0`. -/
def connectionsOf {M CK AK : Type} [DecidableEq CK]
    (actions : List (AK × PlannerAction M CK)) (exactConditionsMatch : Bool) :
    List (AK × AK × Scalar) :=
  actions.flatMap (fun a =>
    actions.filterMap (fun b =>
      let count := (a.2.postconditions ∩ b.2.preconditions).card
      let limit := min a.2.postconditions.card b.2.postconditions.card
      if exactConditionsMatch then
        if count = limit then some (a.1, b.1, 1) else none
      else if 0 < count then some (a.1, b.1, (limit : Scalar) / (count : Scalar))
      else none))

/-- `Planner::new_unchecked`: derive the connections, start with no plan. -/
def Planner.newUnchecked {M CK AK S : Type} [DecidableEq CK]
    (conditions : List (CK × (M → Bool))) (actions : List (AK × PlannerAction M CK))
    (goalSelector : GoalSelector S M AK) (gsState : S) (exactConditionsMatch : Bool) :
    Planner M CK AK S :=
  { conditions := conditions
    actions := actions
    connections := connectionsOf actions exactConditionsMatch
    goalSelector := goalSelector
    gsState := gsState
    plan := none
    searches := 0 }

/-- `Planner::active_plan` (planner.rs lines 256-258): the stored path
from the cursor on. -/
def Planner.activePlan {M CK AK S : Type} (p : Planner M CK AK S) : Option (List AK) :=
  p.plan.map (fun q => q.2.drop q.1)

/-- `Planner::active_action` (planner.rs lines 261-266). -/
def Planner.activeAction {M CK AK S : Type} (p : Planner M CK AK S) : Option AK :=
  match p.activePlan with
  | some pl => pl.head?
  | none => none

/-- `Planner::active_goal` (planner.rs lines 269-274). -/
def Planner.activeGoal {M CK AK S : Type} (p : Planner M CK AK S) : Option AK :=
  match p.plan with
  | some q => q.2.getLast?
  | none => none

/-- `Planner::active_transition` (planner.rs lines 277-287): the first two
entries of the active plan. -/
def Planner.activeTransition {M CK AK S : Type} (p : Planner M CK AK S) :
    Option AK × Option AK :=
  match p.activePlan with
  | some pl => (pl.head?, pl[1]?)
  | none => (none, none)

/-- `self.actions.get(id).unwrap()`-style access. -/
def Planner.getAction {M CK AK S : Type} [DecidableEq AK] (p : Planner M CK AK S) (id : AK) :
    PlannerAction M CK :=
  (alookup p.actions id).getD (PlannerAction.defaultAction M CK)

/-- `Planner::find_start_action` (planner.rs lines 446-452): the action
with the most currently satisfied preconditions; `max_by` keeps the LAST
maximal entry. -/
def Planner.findStartAction {M CK AK S : Type} [DecidableEq CK] (p : Planner M CK AK S)
    (m : M) : Option AK :=
  maxByLast (p.actions.map (fun q => (q.1, q.2.scorePreconditions p.conditions m)))

/-- Result of the best-first search loop of `find_plan`. `outOfFuel` is a
model artifact: the Rust loop has no fuel and simply has not terminated
yet within the given bound (it can genuinely diverge on negative-cost
cycles). -/
inductive SearchResult (AK : Type) where
  | found (path : List AK)
  | exhausted
  | outOfFuel
deriving DecidableEq

/-- `Vec::swap_remove(i)`: replace element `i` with the last element and
pop. -/
def swapRemove {A : Type} (l : List A) (i : Nat) : List A :=
  match l.getLast? with
  | none => l
  | some last => (l.set i last).dropLast

/-- Rust `Iterator::min_by` index over `(score, id)` pairs: of several
equally minimal scores the FIRST index wins. -/
def firstMinIdxGo {AK : Type} : List (Scalar × AK) → Scalar → Nat → Nat → Nat
  | [], _, best, _ => best
  | (s, _) :: rest, bs, best, i =>
    if s < bs then firstMinIdxGo rest s i (i + 1) else firstMinIdxGo rest bs best (i + 1)

/-- Index of the open-list entry `min_by` selects (planner.rs lines
343-348). -/
def firstMinIdx {AK : Type} : List (Scalar × AK) → Nat
  | [] => 0
  | (s, _) :: rest => firstMinIdxGo rest s 0 1

/-- `HashMap::insert`: replace the existing binding or append. -/
def upsert {K V : Type} [DecidableEq K] : List (K × V) → K → V → List (K × V)
  | [], k, v => [(k, v)]
  | (k1, v1) :: rest, k, v =>
    if k1 = k then (k, v) :: rest else (k1, v1) :: upsert rest k v

/-- `HashMap::remove`: drop the binding for `k`, yielding its value and
the remaining list. -/
def removeKey {K V : Type} [DecidableEq K] : List (K × V) → K → Option (V × List (K × V))
  | [], _ => none
  | (k1, v1) :: rest, k =>
    if k1 = k then some (v1, rest)
    else
      match removeKey rest k with
      | some (v, rest1) => some (v, (k1, v1) :: rest1)
      | none => none

/-- The path-reconstruction loop of `find_plan` (planner.rs lines
353-357): repeatedly `remove` the predecessor of the current node. Each
successful step removes one binding, so `cameFrom.length + 1` fuel makes
the recursion total without changing its result. -/
def walkCameFrom {AK : Type} [DecidableEq AK] : Nat → List (AK × AK) → AK → List AK
  | 0, _, _ => []
  | fuel + 1, cameFrom, current =>
    match removeKey cameFrom current with
    | some (prev, cameFrom1) => prev :: walkCameFrom fuel cameFrom1 prev
    | none => []

/-- The mutable state of the search loop. -/
structure SearchState (AK : Type) where
  scores : List (AK × Scalar)
  gscores : List (AK × Scalar)
  openList : List (Scalar × AK)
  cameFrom : List (AK × AK)

/-- Outgoing connections of `id` in declaration order (planner.rs lines
368-373). -/
def neighborsOf {AK : Type} [DecidableEq AK] (connections : List (AK × AK × Scalar))
    (id : AK) : List (AK × Scalar) :=
  (connections.filter (fun c => c.1 = id)).map (fun c => (c.2.1, c.2.2))

/-- One neighbour relaxation of the search loop (planner.rs lines
374-386): an absent `gscores` entry reads as `Scalar::INFINITY`, the
destination cost is cached in `scores`, and the node is pushed to the
open list only if not already queued. -/
def relaxNeighbor {AK : Type} [DecidableEq AK] (costOf : AK → Scalar) (totalScore : Scalar)
    (id : AK) (st : SearchState AK) (nb : AK × Scalar) : SearchState AK :=
  let nid := nb.1
  let weight := nb.2
  let gscore := alookup st.gscores nid
  let cached := alookup st.scores nid
  let nsc := match cached with
    | some v => v
    | none => costOf nid
  let scores1 := match cached with
    | some _ => st.scores
    | none => st.scores ++ [(nid, costOf nid)]
  let nscore := nsc * weight
  let score := totalScore + nscore
  if (match gscore with | none => true | some g => score < g) then
    { scores := scores1
      gscores := upsert st.gscores nid score
      cameFrom := upsert st.cameFrom nid id
      openList :=
        if st.openList.any (fun q => q.2 = nid) then st.openList
        else st.openList ++ [(score, nid)] }
  else
    { st with scores := scores1 }

/-- The best-first search loop of `find_plan` (planner.rs lines 342-388):
pop the minimum-priority open node via `swap_remove`, stop with the
reversed predecessor walk on reaching the goal, otherwise relax every
outgoing connection. -/
def searchLoop {AK : Type} [DecidableEq AK] (connections : List (AK × AK × Scalar))
    (costOf : AK → Scalar) (goal : AK) : Nat → SearchState AK → SearchResult AK
  | 0, _ => .outOfFuel
  | fuel + 1, st =>
    if st.openList.isEmpty then .exhausted
    else
      let idx := firstMinIdx st.openList
      let entry := st.openList.getD idx (0, goal)
      let totalScore := entry.1
      let id := entry.2
      let openList1 := swapRemove st.openList idx
      if id = goal then
        .found ((id :: walkCameFrom (st.cameFrom.length + 1) st.cameFrom id).reverse)
      else
        let st1 := (neighborsOf connections id).foldl
          (relaxNeighbor costOf totalScore id) { st with openList := openList1 }
        searchLoop connections costOf goal fuel st1

/-- The `if let Some(id) = &active_action { task.on_exit(memory) }` step
of `find_plan` (planner.rs lines 310-311 and 328-329). -/
def Planner.exitActive {M CK AK S : Type} [DecidableEq AK] (p : Planner M CK AK S) (m : M) :
    M :=
  match p.activeAction with
  | some id => (p.getAction id).task.onExit m
  | none => m

/-- The search tail of `Planner::find_plan` (src/src planner.rs lines
328-389), reached once the goal exists and a distinct start action was
chosen: exit the active action and drop the plan (when one is active),
seed the open set with the start action's cost, run the best-first loop,
and on success enter the start action, store the path with cursor 0 and
inform the goal selector. The intermediate planner values of the source
leave `actions`, `connections`, `conditions`, `goalSelector` and
`gsState` untouched, so the accesses are written on `p` directly. -/
def Planner.replan {M CK AK S : Type} [DecidableEq CK] [DecidableEq AK]
    (p : Planner M CK AK S) (goal startAction : AK) (m : M) (fuel : Nat) :
    Planner M CK AK S × M × Bool :=
  let m1 := p.exitActive m
  let p2 : Planner M CK AK S :=
    { p with plan := if p.activeAction.isSome then none else p.plan
             searches := p.searches + 1 }
  let c0 := (p.getAction startAction).cost m1
  let st0 : SearchState AK :=
    { scores := [(startAction, c0)]
      gscores := [(startAction, c0)]
      openList := [(c0, startAction)]
      cameFrom := [] }
  match searchLoop p.connections (fun id => (p.getAction id).cost m1) goal fuel st0 with
  | .found path =>
    let m2 := (p.getAction startAction).task.onEnter m1
    let p3 := { p2 with plan := some (0, path) }
    let q := p3.goalSelector.changeMind p3.gsState (some goal) m2
    ({ p3 with gsState := q.1 }, q.2.1, true)
  | .exhausted => (p2, m1, false)
  | .outOfFuel => (p2, m1, false)

/-- `Planner::find_plan` (src/src planner.rs lines 292-390). `fuel`
bounds the search loop only. Differences of the crates/emergent version
(lines 491-570): it lacks the `start_action == goal_action` early
return; every other step is identical. -/
def Planner.findPlan {M CK AK S : Type} [DecidableEq CK] [DecidableEq AK]
    (p : Planner M CK AK S) (goalAction : Option AK) (m : M) (forced : Bool) (fuel : Nat) :
    Except (PlannerError CK AK) (Planner M CK AK S × M × Bool) :=
  if p.activeAction = goalAction then .ok (p, m, false)
  else if (match p.activeAction with
           | some id => !forced && (p.getAction id).task.isLocked m
           | none => false) then .ok (p, m, false)
  else
    match goalAction with
    | none =>
      let m1 := p.exitActive m
      let p1 := { p with plan := none }
      let q := p1.goalSelector.changeMind p1.gsState none m1
      .ok ({ p1 with gsState := q.1 }, q.2.1, true)
    | some goal =>
      if (alookup p.actions goal).isNone then .error (.ActionDoesNotExists goal)
      else
        match p.findStartAction m with
        | none => .ok (p, m, false)
        | some startAction =>
          if startAction = goal then .ok (p, m, false)
          else .ok (p.replan goal startAction m fuel)

/-- The trailing delegation block of `Planner::process` (planner.rs lines
433-436). -/
def Planner.delegate {M CK AK S : Type} [DecidableEq AK] (p : Planner M CK AK S) (m : M) :
    Planner M CK AK S × M × Bool :=
  match p.activeAction with
  | some id =>
    let q := (p.getAction id).task.onProcess m
    (p, q.1, q.2)
  | none => (p, m, false)

/-- `Planner::process` (src/src planner.rs lines 393-437): ask the goal
selector; on a matching goal advance or retire the stored plan by the
post/precondition handshake, otherwise replan via `find_plan`; always
fall through to delegation unless `find_plan` reported a change. -/
def Planner.process {M CK AK S : Type} [DecidableEq CK] [DecidableEq AK]
    (p : Planner M CK AK S) (m : M) (fuel : Nat) : Planner M CK AK S × M × Bool :=
  let d := p.goalSelector.decide p.gsState m
  let p1 : Planner M CK AK S := { p with gsState := d.1 }
  let m1 := d.2.1
  let newId := d.2.2
  if newId = p1.activeGoal then
    let step : Planner M CK AK S × M :=
      match p1.activeTransition with
      | (some prev, some next) =>
        if (p1.getAction prev).validatePostconditions p1.conditions m1
            && (p1.getAction next).validatePreconditions p1.conditions m1 then
          let m2 := (p1.getAction prev).task.onExit m1
          let m3 := (p1.getAction next).task.onEnter m2
          ({ p1 with plan := match p1.plan with
                             | some (c, path) => some (c + 1, path)
                             | none => none }, m3)
        else (p1, m1)
      | (some prev, none) =>
        if (p1.getAction prev).validatePostconditions p1.conditions m1 then
          let m2 := (p1.getAction prev).task.onExit m1
          ({ p1 with plan := none }, m2)
        else (p1, m1)
      | _ => (p1, m1)
    step.1.delegate step.2
  else
    match p1.findPlan newId m1 false fuel with
    | .ok (p2, m2, true) => (p2, m2, true)
    | .ok (p2, m2, false) => p2.delegate m2
    | .error _ => p1.delegate m1

/-- `<Planner as DecisionMaker>::change_mind` (planner.rs lines 465-467):
a forced `find_plan`, errors swallowed. -/
def Planner.changeMind {M CK AK S : Type} [DecidableEq CK] [DecidableEq AK]
    (p : Planner M CK AK S) (id : Option AK) (m : M) (fuel : Nat) :
    Planner M CK AK S × M × Bool :=
  match p.findPlan id m true fuel with
  | .ok (p1, m1, b) => (p1, m1, b)
  | .error _ => (p, m, false)

/-- `Planner::update` (planner.rs lines 440-444). -/
def Planner.update {M CK AK S : Type} [DecidableEq AK] (p : Planner M CK AK S) (m : M) :
    Planner M CK AK S × M :=
  match p.activeAction with
  | some id => (p, (p.getAction id).task.onUpdate m)
  | none => (p, m)

/-- `<Planner as Task>::on_enter` (planner.rs lines 484-487):
`find_plan(None, forced)` then `process`. -/
def Planner.onEnter {M CK AK S : Type} [DecidableEq CK] [DecidableEq AK]
    (p : Planner M CK AK S) (m : M) (fuel : Nat) : Planner M CK AK S × M :=
  let r : Planner M CK AK S × M :=
    match p.findPlan none m true fuel with
    | .ok (p1, m1, _) => (p1, m1)
    | .error _ => (p, m)
  let q := r.1.process r.2 fuel
  (q.1, q.2.1)

/-- `<Planner as Task>::on_exit` (planner.rs lines 489-491). -/
def Planner.onExit {M CK AK S : Type} [DecidableEq CK] [DecidableEq AK]
    (p : Planner M CK AK S) (m : M) (fuel : Nat) : Planner M CK AK S × M :=
  match p.findPlan none m true fuel with
  | .ok (p1, m1, _) => (p1, m1)
  | .error _ => (p, m)

/-! ### Theorems -/

attribute [local semireducible] Rat.add Rat.mul Rat.sub Rat.inv

/-- C6: the claim says `Reasoner::process` on an empty state set returns
normally with no decision for any memory. The src/src reasoner
(reasoner.rs lines 170-186) instead panics: `.max_by(..)` yields `None`
on an empty state set and the source unwraps it — modelled here by the
`none` result. The crates/emergent reasoner (lines 242-261) guards the
empty set and returns `false` with the active state still `none`, which
is what the claim and the spec describe. -/
theorem c6_reasoner_empty_states {M K : Type} [DecidableEq K] (m : M)
    (sel : M → List (K × Scalar) → Option K) :
    Reasoner.process { states := [], activeState := none : Reasoner M K } m = none ∧
    ReasonerV2.process { states := [], stateSelector := sel, activeState := none } m =
      ({ states := [], stateSelector := sel, activeState := none }, m, false) :=
  ⟨rfl, rfl⟩

/-- The four-state sequencer of claim C7: `looped = true`,
`continuity = true`, memory-independent unlocked conditions
`[true, false, true, false]`, starting inactive. -/
def seqC7 : Sequencer Unit :=
  { states := [⟨fun _ => true, Task.noop Unit⟩, ⟨fun _ => false, Task.noop Unit⟩,
               ⟨fun _ => true, Task.noop Unit⟩, ⟨fun _ => false, Task.noop Unit⟩]
    activeIndex := none
    looped := true
    continuity := true }

/-- C7: with `looped = true`, `continuity = true` and conditions
`[true, false, true, false]`, three successive `process` calls starting
inactive activate indices 0, then 2, then 0 (skipping the failing
conditions and wrapping past the end), each reporting a change. -/
theorem c7_sequencer_looped_continuity :
    ((seqC7.process ()).1.activeIndex = some 0 ∧ (seqC7.process ()).2.2 = true) ∧
    (((seqC7.process ()).1.process ()).1.activeIndex = some 2 ∧
      ((seqC7.process ()).1.process ()).2.2 = true) ∧
    ((((seqC7.process ()).1.process ()).1.process ()).1.activeIndex = some 0 ∧
      (((seqC7.process ()).1.process ()).1.process ()).2.2 = true) := by
  decide

/-- C4: for a machinery with an active state, the FIRST guard of its
declaration-ordered guard list whose condition validates determines the
transition target: the machine switches to that guard's target exactly
when it differs from the active id, exists, and the active task is not
locked; otherwise the active state is unchanged. Later validating guards
are never consulted (`hfirst` pins the first match only). -/
theorem c4_machinery_first_guard {M K : Type} [DecidableEq K] (mc : Machinery M K) (m : M)
    (aid : K) (st : MachineryState M K) (c : MachineryChange M K)
    (hact : mc.activeState = some aid)
    (hst : alookup mc.states aid = some st)
    (hfirst : st.changes.find? (fun ch => ch.condition m) = some c) :
    (mc.process m).1.activeState =
      if c.target ≠ aid ∧ (alookup mc.states c.target).isSome ∧ st.task.isLocked m = false
      then some c.target else some aid := by
  have hdel : ∀ m1 : M, (mc.delegate m1).1.activeState = some aid := by
    intro m1
    simp [Machinery.delegate, hact]
  by_cases htgt : c.target = aid
  · subst htgt
    simp [Machinery.process, hact, hst, hfirst, Machinery.changeActiveState, hdel]
  · simp only [Machinery.process, hact, hst, hfirst, Machinery.changeActiveState]
    rcases hcl : alookup mc.states c.target with _ | cst
    · simp [htgt, hcl, hdel]
    · by_cases hlock : st.task.isLocked m
      · simp [htgt, hcl, Machinery.performChange, hact, hst, hlock, hdel]
      · simp [htgt, hcl, Machinery.performChange, hact, hst, hlock]

/-- The machinery of the C4 witness: state 0 is active and has two
guards, both validating, targeting 1 and 2 respectively. -/
def mcC4 : Machinery Unit Nat :=
  { states := [(0, ⟨Task.noop Unit, [⟨1, fun _ => true⟩, ⟨2, fun _ => true⟩]⟩),
               (1, ⟨Task.noop Unit, []⟩), (2, ⟨Task.noop Unit, []⟩)]
    activeState := some 0 }

/-- Witness for C4: with two validating guards the machine switches to
the FIRST guard's target (state 1), not the second's. -/
theorem c4_machinery_first_guard_witness : (mcC4.process ()).1.activeState = some 1 := by
  rw [c4_machinery_first_guard mcC4 () 0 ⟨Task.noop Unit, [⟨1, fun _ => true⟩, ⟨2, fun _ => true⟩]⟩
    ⟨1, fun _ => true⟩ rfl rfl rfl]
  decide

/-- Any nonempty association list has a `max_by` winner. -/
theorem maxByLast_isSome {K B : Type} [LinearOrder B] (l : List (K × B)) (h : l ≠ []) :
    ∃ k, maxByLast l = some k := by
  cases l with
  | nil => exact absurd rfl h
  | cons p rest => exact ⟨maxByLastGo rest p.1 p.2, rfl⟩

/-- C5 (amended): when the active unit's task is locked and the caller
does not force, the Machinery, Reasoner, and Selector perform no
transition and delegate `on_process` to the active task; the Sequencer
also performs no transition, but it returns `false` immediately WITHOUT
delegating `on_process` (sequencer.rs lines 70-73). -/
theorem c5_locked_no_transition :
    (∀ (M K : Type) [DecidableEq K] (mc : Machinery M K) (m : M) (aid : K)
        (st : MachineryState M K),
        mc.activeState = some aid → alookup mc.states aid = some st →
        st.task.isLocked m = true →
        mc.process m = (mc, (st.task.onProcess m).1, (st.task.onProcess m).2)) ∧
    (∀ (M K : Type) [DecidableEq K] (r : Reasoner M K) (m : M) (aid : K)
        (st : ReasonerState M),
        r.activeState = some aid → alookup r.states aid = some st →
        st.task.isLocked m = true →
        r.process m = some (r, (st.task.onProcess m).1, (st.task.onProcess m).2)) ∧
    (∀ (M K : Type) [DecidableEq K] (s : Selector M K) (m : M) (aid : K)
        (st : SelectorState M),
        s.activeState = some aid → alookup s.states aid = some st →
        st.task.isLocked m = true →
        s.process m = (s, (st.task.onProcess m).1, (st.task.onProcess m).2)) ∧
    (∀ (M : Type) (s : Sequencer M) (m : M) (i : Nat) (st : SequencerState M),
        s.activeIndex = some i → s.states[i]? = some st →
        st.task.isLocked m = true →
        s.process m = (s, m, false)) := by
  refine ⟨?_, ?_, ?_, ?_⟩
  · intro M K instK mc m aid st hact hst hlock
    have hdel : mc.delegate m = (mc, (st.task.onProcess m).1, (st.task.onProcess m).2) := by
      simp [Machinery.delegate, hact, hst]
    simp only [Machinery.process, hact, hst]
    rcases hfind : st.changes.find? (fun ch => ch.condition m) with _ | c
    · simp [hfind, hdel]
    · simp only [Machinery.changeActiveState, hact]
      by_cases htgt : c.target = aid
      · simp [hfind, htgt, hdel]
      · rcases hcl : alookup mc.states c.target with _ | cst
        · simp [hfind, htgt, hcl, hdel]
        · simp [hfind, htgt, hcl, Machinery.performChange, hact, hst, hlock, hdel]
  · intro M K instK r m aid st hact hst hlock
    have hne : r.states ≠ [] := by
      intro hnil
      rw [hnil] at hst
      simp [alookup] at hst
    have hmap : r.states.map (fun p => (p.1, p.2.consideration m)) ≠ [] := by
      simpa using hne
    obtain ⟨newId, hmax⟩ := maxByLast_isSome _ hmap
    have hdel : r.delegate m = (r, (st.task.onProcess m).1, (st.task.onProcess m).2) := by
      simp [Reasoner.delegate, hact, hst]
    simp only [Reasoner.process, hmax, Reasoner.changeActiveState, hact]
    by_cases htgt : newId = aid
    · simp [htgt, hdel]
    · rcases hcl : alookup r.states newId with _ | cst
      · simp [htgt, hcl, hdel]
      · simp [htgt, hcl, Reasoner.performChange, hact, hst, hlock, hdel]
  · intro M K instK s m aid st hact hst hlock
    have hdel : s.delegate m = (s, (st.task.onProcess m).1, (st.task.onProcess m).2) := by
      simp [Selector.delegate, hact, hst]
    simp only [Selector.process, Selector.changeActiveState, hact]
    rcases hid : (if ((s.states.filter (fun p => p.2.condition m)).map (fun p => p.1)).isEmpty
        then none
        else s.statePicker ((s.states.filter (fun p => p.2.condition m)).map (fun p => p.1)) m)
      with _ | k
    · simp [hid, Selector.performChange, hact, hst, hlock, hdel]
    · by_cases htgt : k = aid
      · simp [hid, htgt, hdel]
      · rcases hcl : alookup s.states k with _ | cst
        · simp [hid, htgt, hcl, hdel]
        · simp [hid, htgt, hcl, Selector.performChange, hact, hst, hlock, hdel]
  · intro M s m i st hact hst hlock
    have hne : s.states.isEmpty = false := by
      cases hs : s.states with
      | nil => rw [hs] at hst; simp at hst
      | cons a l => rfl
    simp [Sequencer.process, hne, hact, hst, hlock]

/-- The always-locked task used by the C5 instances: `on_process`
increments the memory and reports a change. -/
def lockedTask : Task Nat :=
  { isLocked := fun _ => true
    onEnter := id
    onExit := id
    onUpdate := id
    onProcess := fun n => (n + 1, true) }

/-- A one-state sequencer whose active state is locked. -/
def seqC5 : Sequencer Nat :=
  { states := [⟨fun _ => true, lockedTask⟩]
    activeIndex := some 0
    looped := false
    continuity := false }

/-- Counterexample for C5 as stated: the claim requires the Sequencer to
delegate `on_process` to the locked active task, which here would
increment the memory and return `true`; the code instead returns `false`
with the memory untouched and never calls `on_process`. -/
theorem c5_locked_no_transition_counterexample :
    seqC5.process 0 = (seqC5, 0, false) ∧ lockedTask.onProcess 0 = (1, true) :=
  ⟨rfl, rfl⟩

/-- A one-state machinery whose active state is locked. -/
def mcC5 : Machinery Nat Nat :=
  { states := [(0, ⟨lockedTask, [⟨1, fun _ => true⟩]⟩)], activeState := some 0 }

/-- A one-state reasoner whose active state is locked. -/
def rC5 : Reasoner Nat Nat :=
  { states := [(0, ⟨fun _ => 0, lockedTask⟩)], activeState := some 0 }

/-- A one-state selector whose active state is locked. -/
def sC5 : Selector Nat Nat :=
  { statePicker := fun av _ => av.head?
    states := [(0, ⟨fun _ => true, lockedTask⟩)]
    activeState := some 0 }

/-- A looped, continuous one-state sequencer whose active state is locked. -/
def seqC5b : Sequencer Nat :=
  { states := [⟨fun _ => true, lockedTask⟩]
    activeIndex := some 0
    looped := true
    continuity := true }

/-- Witness for C5 (amended): concrete locked Machinery/Reasoner/Selector
delegate `on_process` (memory 5 becomes 6, result `true`), while the
concrete locked Sequencer returns `false` leaving memory 5 unchanged. -/
theorem c5_locked_no_transition_witness :
    mcC5.process 5 = (mcC5, 6, true) ∧
    rC5.process 5 = some (rC5, 6, true) ∧
    sC5.process 5 = (sC5, 6, true) ∧
    seqC5b.process 5 = (seqC5b, 5, false) :=
  ⟨c5_locked_no_transition.1 Nat Nat mcC5 5 0 ⟨lockedTask, [⟨1, fun _ => true⟩]⟩ rfl rfl rfl,
   c5_locked_no_transition.2.1 Nat Nat rC5 5 0 ⟨fun _ => 0, lockedTask⟩ rfl rfl rfl,
   c5_locked_no_transition.2.2.1 Nat Nat sC5 5 0 ⟨fun _ => true, lockedTask⟩ rfl rfl rfl,
   c5_locked_no_transition.2.2.2 Nat seqC5b 5 0 ⟨fun _ => true, lockedTask⟩ rfl rfl rfl⟩

/-- C10: the src/src machinery has no initial-state decision-maker slot:
`on_enter` always deactivates; `process` with no active state reports no
change and activates nothing; hence under any sequence of `on_enter`,
`on_update` and `on_process` calls alone an inactive machinery stays
inactive forever — only `change_active_state`/`change_mind` with
`Some(id)` can activate a state. -/
theorem c10_machinery_stays_inactive {M K : Type} [DecidableEq K] :
    (∀ (mc : Machinery M K) (m : M), (mc.onEnter m).1.activeState = none) ∧
    (∀ (mc : Machinery M K) (m : M), mc.activeState = none → mc.process m = (mc, m, false)) ∧
    (∀ (mc : Machinery M K) (m : M) (calls : List LifeCall),
        mc.activeState = none → (Machinery.runCalls mc m calls).1.activeState = none) := by
  have henter : ∀ (mc : Machinery M K) (m : M), (mc.onEnter m).1.activeState = none := by
    intro mc m
    rcases hact : mc.activeState with _ | aid
    · simp [Machinery.onEnter, Machinery.changeActiveState, hact]
    · simp [Machinery.onEnter, Machinery.changeActiveState, hact,
        Machinery.performChange]
  have hproc : ∀ (mc : Machinery M K) (m : M), mc.activeState = none →
      mc.process m = (mc, m, false) := by
    intro mc m hact
    simp [Machinery.process, hact, Machinery.delegate]
  refine ⟨henter, hproc, ?_⟩
  intro mc m calls
  induction calls generalizing mc m with
  | nil => intro hact; simpa [Machinery.runCalls] using hact
  | cons c rest ih =>
    intro hact
    cases c with
    | enter =>
      simp only [Machinery.runCalls]
      apply ih
      rcases hr : mc.onEnter m with ⟨mc1, m1⟩
      have := henter mc m
      rw [hr] at this
      exact this
    | update =>
      simp only [Machinery.runCalls, Machinery.update, hact]
      exact ih _ _ hact
    | proc =>
      simp only [Machinery.runCalls, hproc mc m hact]
      exact ih _ _ hact

/-- Witness for C10: a concrete one-state machinery starting inactive
stays inactive across an enter/process/update/process call sequence. -/
theorem c10_machinery_stays_inactive_witness :
    (Machinery.runCalls
      { states := [(0, ⟨lockedTask, [⟨0, fun _ => true⟩]⟩)], activeState := none }
      5 [.enter, .proc, .update, .proc]).1.activeState = none :=
  c10_machinery_stays_inactive.2.2
    { states := [(0, ⟨lockedTask, [⟨0, fun _ => true⟩]⟩)], activeState := none }
    5 [.enter, .proc, .update, .proc] rfl

/-- C1 (amended): the connection rule holds for EVERY ordered pair of
actions, including `a = b` — the construction does not skip identical
pairs. With unique action ids, `(a, b, w)` is a connection in exact mode
iff `|a.post ∩ b.pre| = min |a.post| |b.post|` and `w = 1`, and in
partial mode iff `|a.post ∩ b.pre| > 0` and
`w = min |a.post| |b.post| / |a.post ∩ b.pre|`. -/
theorem c1_connection_graph {M CK AK : Type} [DecidableEq CK] [DecidableEq AK]
    (actions : List (AK × PlannerAction M CK)) (hnd : (actions.map Prod.fst).Nodup)
    (a b : AK) (w : Scalar) :
    ((a, b, w) ∈ connectionsOf actions true ↔
      ∃ av bv, alookup actions a = some av ∧ alookup actions b = some bv ∧
        (av.postconditions ∩ bv.preconditions).card =
          min av.postconditions.card bv.postconditions.card ∧ w = 1) ∧
    ((a, b, w) ∈ connectionsOf actions false ↔
      ∃ av bv, alookup actions a = some av ∧ alookup actions b = some bv ∧
        0 < (av.postconditions ∩ bv.preconditions).card ∧
        w = ((min av.postconditions.card bv.postconditions.card : Nat) : Scalar) /
          ((av.postconditions ∩ bv.preconditions).card : Scalar)) := by
  constructor
  · constructor
    · intro hmem
      simp only [connectionsOf, List.mem_flatMap, List.mem_filterMap] at hmem
      obtain ⟨pa, hpa, pb, hpb, hf⟩ := hmem
      simp only [if_true] at hf
      by_cases hc : (pa.2.postconditions ∩ pb.2.preconditions).card =
          min pa.2.postconditions.card pb.2.postconditions.card
      · rw [if_pos hc] at hf
        simp only [Option.some.injEq, Prod.mk.injEq] at hf
        obtain ⟨ha, hb, hw⟩ := hf
        subst ha
        subst hb
        subst hw
        exact ⟨pa.2, pb.2, alookup_eq_some_of_mem hnd hpa,
          alookup_eq_some_of_mem hnd hpb, hc, rfl⟩
      · rw [if_neg hc] at hf
        exact absurd hf (by simp)
    · rintro ⟨av, bv, hla, hlb, hc, hw⟩
      subst hw
      simp only [connectionsOf, List.mem_flatMap, List.mem_filterMap]
      refine ⟨(a, av), mem_of_alookup_eq_some hla, (b, bv), mem_of_alookup_eq_some hlb, ?_⟩
      simp [hc]
  · constructor
    · intro hmem
      simp only [connectionsOf, List.mem_flatMap, List.mem_filterMap] at hmem
      obtain ⟨pa, hpa, pb, hpb, hf⟩ := hmem
      simp only [Bool.false_eq_true, if_false] at hf
      by_cases hc : 0 < (pa.2.postconditions ∩ pb.2.preconditions).card
      · rw [if_pos hc] at hf
        simp only [Option.some.injEq, Prod.mk.injEq] at hf
        obtain ⟨ha, hb, hw⟩ := hf
        subst ha
        subst hb
        exact ⟨pa.2, pb.2, alookup_eq_some_of_mem hnd hpa,
          alookup_eq_some_of_mem hnd hpb, hc, hw.symm⟩
      · rw [if_neg hc] at hf
        exact absurd hf (by simp)
    · rintro ⟨av, bv, hla, hlb, hc, hw⟩
      subst hw
      simp only [connectionsOf, List.mem_flatMap, List.mem_filterMap]
      refine ⟨(a, av), mem_of_alookup_eq_some hla, (b, bv), mem_of_alookup_eq_some hlb, ?_⟩
      simp [hc]

/-- A single action whose precondition and postcondition sets are the
same fact `{0}`, so that its postconditions fully overlap its own
preconditions. -/
def actSelf : PlannerAction Unit Nat :=
  { preconditions := {0}, postconditions := {0}, cost := fun _ => 0, task := Task.noop Unit }

/-- Counterexample for C1 as stated: the claim says no edge is ever
created from an action to itself, but a planner built from the single
action `actSelf` (overlap 1 = min of the postcondition counts) gets the
self-edge `0 → 0` with weight 1 in exact-match mode: the pair iteration
of `new_unchecked` does not exclude identical pairs. -/
theorem c1_connection_graph_counterexample :
    (0, 0, (1 : Scalar)) ∈ connectionsOf [(0, actSelf)] true := by
  decide

/-- Witness for C1 (amended): the membership criterion applied to the
one-action planner produces the self-edge. -/
theorem c1_connection_graph_witness :
    (([(0, actSelf)].map Prod.fst).Nodup) ∧
      (0, 0, (1 : Scalar)) ∈ connectionsOf [(0, actSelf)] true :=
  ⟨by decide,
   (c1_connection_graph [(0, actSelf)] (by decide) 0 0 1).1.mpr
     ⟨actSelf, actSelf, rfl, rfl, by decide, rfl⟩⟩

/-- C8: for two actions `A` (id 0, postconditions `{1}`) and `B` (id 1,
preconditions `{1}`), whenever the overlap (here 1) equals the full
postcondition count `min |A.post| |B.post|` (i.e. `B.post` is nonempty),
exact-match construction produces the connection `A → B` with weight 1,
and partial construction produces the same connection, also with weight
`1/1 = 1`. -/
theorem c8_two_action_round_trip {M : Type} (aPre bPost : Finset Nat) (hb : bPost.Nonempty)
    (cA cB : M → Scalar) (tA tB : Task M) :
    (0, 1, (1 : Scalar)) ∈ connectionsOf
      [(0, ⟨aPre, {1}, cA, tA⟩), (1, ⟨{1}, bPost, cB, tB⟩)] true ∧
    (0, 1, (1 : Scalar)) ∈ connectionsOf
      [(0, ⟨aPre, {1}, cA, tA⟩), (1, ⟨{1}, bPost, cB, tB⟩)] false := by
  have hlimit : min ({1} : Finset Nat).card bPost.card = 1 := by
    have := hb.card_pos
    simp only [Finset.card_singleton]
    omega
  constructor
  · simp only [connectionsOf, List.mem_flatMap, List.mem_filterMap]
    refine ⟨(0, ⟨aPre, {1}, cA, tA⟩), by simp, (1, ⟨{1}, bPost, cB, tB⟩), by simp, ?_⟩
    simp [Finset.inter_self, hlimit, hb, hb.ne_empty]
  · simp only [connectionsOf, List.mem_flatMap, List.mem_filterMap]
    refine ⟨(0, ⟨aPre, {1}, cA, tA⟩), by simp, (1, ⟨{1}, bPost, cB, tB⟩), by simp, ?_⟩
    simp [Finset.inter_self, hlimit, hb, hb.ne_empty]

/-- Witness for C8: the concrete instance with `A.pre = ∅` and
`B.post = {2}`. -/
theorem c8_two_action_round_trip_witness :
    (({2} : Finset Nat).Nonempty) ∧
    ((0, 1, (1 : Scalar)) ∈ connectionsOf
      [(0, ⟨∅, {1}, fun _ => 0, Task.noop Unit⟩), (1, ⟨{1}, {2}, fun _ => 0, Task.noop Unit⟩)]
      true ∧
    (0, 1, (1 : Scalar)) ∈ connectionsOf
      [(0, ⟨∅, {1}, fun _ => 0, Task.noop Unit⟩), (1, ⟨{1}, {2}, fun _ => 0, Task.noop Unit⟩)]
      false) :=
  ⟨⟨2, by decide⟩,
   c8_two_action_round_trip ∅ {2} ⟨2, by decide⟩ (fun _ => 0) (fun _ => 0)
     (Task.noop Unit) (Task.noop Unit)⟩

/-- The plan-shape invariant of claim C9: whenever a plan is stored, its
path is nonempty and the cursor is a valid index. -/
def PlanInv {M CK AK S : Type} (p : Planner M CK AK S) : Prop :=
  ∀ c path, p.plan = some (c, path) → c < path.length

/-- A path reported by the search loop is never empty: it always starts
from the popped goal node. -/
theorem searchLoop_found_ne_nil {AK : Type} [DecidableEq AK]
    (connections : List (AK × AK × Scalar)) (costOf : AK → Scalar) (goal : AK) :
    ∀ (fuel : Nat) (st : SearchState AK) (path : List AK),
      searchLoop connections costOf goal fuel st = .found path → path ≠ [] := by
  intro fuel
  induction fuel with
  | zero =>
    intro st path h
    simp [searchLoop] at h
  | succ n ih =>
    intro st path h
    rw [searchLoop] at h
    by_cases he : st.openList.isEmpty
    · simp [he] at h
    · simp only [he, Bool.false_eq_true, if_false] at h
      by_cases hg : (st.openList.getD (firstMinIdx st.openList) (0, goal)).2 = goal
      · rw [if_pos hg] at h
        simp only [SearchResult.found.injEq] at h
        subst h
        simp
      · rw [if_neg hg] at h
        exact ih _ _ h

/-- `replan` preserves the plan-shape invariant: it stores either `none`
or a fresh nonempty path with cursor 0. -/
theorem planInv_replan {M CK AK S : Type} [DecidableEq CK] [DecidableEq AK]
    (p : Planner M CK AK S) (goal startAction : AK) (m : M) (fuel : Nat)
    (hinv : PlanInv p) : PlanInv (p.replan goal startAction m fuel).1 := by
  rcases hact : p.activeAction with _ | aid
  · simp only [Planner.replan, hact, Option.isSome_none, Bool.false_eq_true, if_false]
    split
    · rename_i path hfound
      intro c path2 hplan
      simp only [Option.some.injEq, Prod.mk.injEq] at hplan
      obtain ⟨hc, hpath⟩ := hplan
      subst hc
      subst hpath
      exact List.length_pos.mpr (searchLoop_found_ne_nil _ _ _ _ _ _ hfound)
    · exact fun c path hplan => hinv c path hplan
    · exact fun c path hplan => hinv c path hplan
  · simp only [Planner.replan, hact, Option.isSome_some, if_true]
    split
    · rename_i path hfound
      intro c path2 hplan
      simp only [Option.some.injEq, Prod.mk.injEq] at hplan
      obtain ⟨hc, hpath⟩ := hplan
      subst hc
      subst hpath
      exact List.length_pos.mpr (searchLoop_found_ne_nil _ _ _ _ _ _ hfound)
    · intro c path hplan
      simp at hplan
    · intro c path hplan
      simp at hplan

/-- Delegation never changes the planner value. -/
theorem delegate_fst {M CK AK S : Type} [DecidableEq AK] (p : Planner M CK AK S) (m : M) :
    (p.delegate m).1 = p := by
  unfold Planner.delegate
  split <;> rfl

/-- `find_plan` preserves the plan-shape invariant on every `Ok` path. -/
theorem planInv_findPlan {M CK AK S : Type} [DecidableEq CK] [DecidableEq AK]
    (p : Planner M CK AK S) (goalAction : Option AK) (m : M) (forced : Bool) (fuel : Nat)
    (p1 : Planner M CK AK S) (m1 : M) (b : Bool)
    (hinv : PlanInv p) (hfp : p.findPlan goalAction m forced fuel = .ok (p1, m1, b)) :
    PlanInv p1 := by
  unfold Planner.findPlan at hfp
  split at hfp
  · simp only [Except.ok.injEq, Prod.mk.injEq] at hfp
    obtain ⟨hp, -, -⟩ := hfp
    subst hp
    exact hinv
  · split at hfp
    · simp only [Except.ok.injEq, Prod.mk.injEq] at hfp
      obtain ⟨hp, -, -⟩ := hfp
      subst hp
      exact hinv
    · split at hfp
      · simp only [Except.ok.injEq, Prod.mk.injEq] at hfp
        obtain ⟨hp, -, -⟩ := hfp
        subst hp
        intro c path hplan
        simp at hplan
      · split at hfp
        · exact absurd hfp (by simp)
        · split at hfp
          · simp only [Except.ok.injEq, Prod.mk.injEq] at hfp
            obtain ⟨hp, -, -⟩ := hfp
            subst hp
            exact hinv
          · split at hfp
            · simp only [Except.ok.injEq, Prod.mk.injEq] at hfp
              obtain ⟨hp, -, -⟩ := hfp
              subst hp
              exact hinv
            · rename_i x1 goalA hgA hgB x2 startA heqA hneA
              simp only [Except.ok.injEq] at hfp
              have h3 : (p.replan goalA startA m fuel).1 = p1 := by rw [hfp]
              exact h3 ▸ planInv_replan _ _ _ _ _ hinv

/-- `process` preserves the plan-shape invariant. -/
theorem planInv_process {M CK AK S : Type} [DecidableEq CK] [DecidableEq AK]
    (p : Planner M CK AK S) (m : M) (fuel : Nat) (hinv : PlanInv p) :
    PlanInv (p.process m fuel).1 := by
  unfold Planner.process
  simp only []
  split
  · rw [delegate_fst]
    split
    · rename_i prev next heq
      split
      · intro c2 path2 hplan
        simp only at hplan
        rcases hp : p.plan with _ | cp
        · rw [hp] at hplan
          simp at hplan
        · obtain ⟨c, path⟩ := cp
          rw [hp] at hplan
          simp only [Option.some.injEq, Prod.mk.injEq] at hplan
          obtain ⟨hc, hpath⟩ := hplan
          subst hc
          subst hpath
          have htr : ((path.drop c).head?, (path.drop c)[1]?) = (some prev, some next) := by
            have h2 : Planner.activeTransition
                { p with gsState := (p.goalSelector.decide p.gsState m).1 } =
                (some prev, some next) := heq
            rw [Planner.activeTransition] at h2
            simp only [Planner.activePlan, hp] at h2
            simpa using h2
          have hnext : (path.drop c)[1]? = some next := (Prod.mk.injEq _ _ _ _ ▸ htr).2
          have hlt : 1 < (path.drop c).length := by
            rcases List.getElem?_eq_some_iff.mp hnext with ⟨h, -⟩
            exact h
          rw [List.length_drop] at hlt
          omega
      · exact hinv
    · split
      · intro c2 path2 hplan
        simp at hplan
      · exact hinv
    · exact hinv
  · split
    · rename_i p2 m2 hfp
      exact planInv_findPlan { p with gsState := (p.goalSelector.decide p.gsState m).1 }
        _ _ _ _ p2 m2 true hinv hfp
    · rename_i p2 m2 hfp
      rw [delegate_fst]
      exact planInv_findPlan { p with gsState := (p.goalSelector.decide p.gsState m).1 }
        _ _ _ _ p2 m2 false hinv hfp
    · rw [delegate_fst]
      exact hinv

/-- `change_mind` preserves the plan-shape invariant. -/
theorem planInv_changeMind {M CK AK S : Type} [DecidableEq CK] [DecidableEq AK]
    (p : Planner M CK AK S) (id : Option AK) (m : M) (fuel : Nat) (hinv : PlanInv p) :
    PlanInv (p.changeMind id m fuel).1 := by
  unfold Planner.changeMind
  split
  · rename_i p1 m1 b hfp
    exact planInv_findPlan _ _ _ _ _ _ _ _ hinv hfp
  · exact hinv

/-- `on_enter` preserves the plan-shape invariant. -/
theorem planInv_onEnter {M CK AK S : Type} [DecidableEq CK] [DecidableEq AK]
    (p : Planner M CK AK S) (m : M) (fuel : Nat) (hinv : PlanInv p) :
    PlanInv (p.onEnter m fuel).1 := by
  unfold Planner.onEnter
  simp only []
  split
  · rename_i p1 m1 b hfp
    exact planInv_process _ _ _ (planInv_findPlan _ _ _ _ _ _ _ _ hinv hfp)
  · exact planInv_process _ _ _ hinv

/-- `on_exit` preserves the plan-shape invariant. -/
theorem planInv_onExit {M CK AK S : Type} [DecidableEq CK] [DecidableEq AK]
    (p : Planner M CK AK S) (m : M) (fuel : Nat) (hinv : PlanInv p) :
    PlanInv (p.onExit m fuel).1 := by
  unfold Planner.onExit
  split
  · rename_i p1 m1 b hfp
    exact planInv_findPlan _ _ _ _ _ _ _ _ hinv hfp
  · exact hinv

/-- `update` never changes the planner value. -/
theorem update_fst {M CK AK S : Type} [DecidableEq AK] (p : Planner M CK AK S) (m : M) :
    (p.update m).1 = p := by
  unfold Planner.update
  split <;> rfl

/-- Under the plan-shape invariant a stored plan makes `active_action`
and `active_goal` return `Some` and `active_plan` a nonempty slice. -/
theorem planInv_accessors {M CK AK S : Type} [DecidableEq AK] (p : Planner M CK AK S)
    (hinv : PlanInv p) (c : Nat) (path : List AK) (hplan : p.plan = some (c, path)) :
    p.activeAction.isSome ∧ p.activeGoal.isSome ∧ p.activePlan ≠ some [] := by
  have hlt := hinv c path hplan
  have hdrop : path.drop c ≠ [] := by
    intro h
    have h2 := congrArg List.length h
    rw [List.length_drop] at h2
    simp only [List.length_nil] at h2
    omega
  refine ⟨?_, ?_, ?_⟩
  · simp only [Planner.activeAction, Planner.activePlan, hplan, Option.map_some']
    exact List.head?_isSome.mpr hdrop
  · simp only [Planner.activeGoal, hplan]
    rw [List.getLast?_isSome]
    intro h
    subst h
    simp at hlt
  · intro hcontra
    rw [Planner.activePlan, hplan] at hcontra
    simp only [Option.map_some', Option.some.injEq] at hcontra
    exact hdrop hcontra

/-- C9: the plan-shape invariant — a stored plan has a nonempty path and
an in-range cursor — holds after `find_plan`, `process`, `change_mind`,
`on_enter`, `on_exit` and `update` whenever it held before, and under it
`active_action`/`active_goal` are `Some` and `active_plan` is a nonempty
slice whenever a plan is stored. -/
theorem c9_plan_invariant {M CK AK S : Type} [DecidableEq CK] [DecidableEq AK] :
    (∀ (p : Planner M CK AK S) (g : Option AK) (m : M) (forced : Bool) (fuel : Nat)
        (p1 : Planner M CK AK S) (m1 : M) (b : Bool),
        PlanInv p → p.findPlan g m forced fuel = .ok (p1, m1, b) → PlanInv p1) ∧
    (∀ (p : Planner M CK AK S) (m : M) (fuel : Nat),
        PlanInv p → PlanInv (p.process m fuel).1) ∧
    (∀ (p : Planner M CK AK S) (id : Option AK) (m : M) (fuel : Nat),
        PlanInv p → PlanInv (p.changeMind id m fuel).1) ∧
    (∀ (p : Planner M CK AK S) (m : M) (fuel : Nat),
        PlanInv p → PlanInv (p.onEnter m fuel).1 ∧ PlanInv (p.onExit m fuel).1) ∧
    (∀ (p : Planner M CK AK S) (m : M), PlanInv p → PlanInv (p.update m).1) ∧
    (∀ (p : Planner M CK AK S), PlanInv p → ∀ (c : Nat) (path : List AK),
        p.plan = some (c, path) →
        p.activeAction.isSome ∧ p.activeGoal.isSome ∧ p.activePlan ≠ some []) :=
  ⟨fun p g m forced fuel p1 m1 b hinv hfp =>
      planInv_findPlan p g m forced fuel p1 m1 b hinv hfp,
   fun p m fuel hinv => planInv_process p m fuel hinv,
   fun p id m fuel hinv => planInv_changeMind p id m fuel hinv,
   fun p m fuel hinv => ⟨planInv_onEnter p m fuel hinv, planInv_onExit p m fuel hinv⟩,
   fun p m hinv => by rw [update_fst]; exact hinv,
   fun p hinv c path hplan => planInv_accessors p hinv c path hplan⟩

/-- C3: once a plan `(c, path)` toward goal `G` is stored and the goal
selector again returns `G` (the stored goal), `process` never enters the
search (the ghost search counter is unchanged) and never changes the
stored path: either the cursor stays, or it advances by one, or — only
when the cursor is on the last action — the plan retires to `none`. -/
theorem c3_plan_stability {M CK AK S : Type} [DecidableEq CK] [DecidableEq AK]
    (p : Planner M CK AK S) (m : M) (fuel : Nat) (c : Nat) (path : List AK)
    (hplan : p.plan = some (c, path))
    (hdec : (p.goalSelector.decide p.gsState m).2.2 = p.activeGoal) :
    (p.process m fuel).1.searches = p.searches ∧
    ((p.process m fuel).1.plan = some (c, path) ∨
     (p.process m fuel).1.plan = some (c + 1, path) ∨
     (c + 1 = path.length ∧ (p.process m fuel).1.plan = none)) := by
  unfold Planner.process
  simp only []
  rw [if_pos (show (p.goalSelector.decide p.gsState m).2.2 =
    Planner.activeGoal { p with gsState := (p.goalSelector.decide p.gsState m).1 } from hdec)]
  rw [delegate_fst]
  split
  · rename_i prev next heq
    split
    · constructor
      · rfl
      · right
        left
        simp [hplan]
    · exact ⟨rfl, Or.inl hplan⟩
  · rename_i prev heq
    split
    · constructor
      · rfl
      · right
        right
        constructor
        · have htr : ((path.drop c).head?, (path.drop c)[1]?) = (some prev, none) := by
            have h2 : Planner.activeTransition
                { p with gsState := (p.goalSelector.decide p.gsState m).1 } =
                (some prev, none) := heq
            rw [Planner.activeTransition] at h2
            simp only [Planner.activePlan, hplan] at h2
            simpa using h2
          have hhead : (path.drop c).head? = some prev := (Prod.mk.injEq _ _ _ _ ▸ htr).1
          have hnext : (path.drop c)[1]? = none := (Prod.mk.injEq _ _ _ _ ▸ htr).2
          have hpos : 0 < (path.drop c).length := by
            rcases hd : path.drop c with _ | ⟨a, l⟩
            · rw [hd] at hhead
              simp at hhead
            · simp
          have hle : (path.drop c).length ≤ 1 := by
            by_contra hgt
            push_neg at hgt
            rw [List.getElem?_eq_none_iff] at hnext
            omega
          rw [List.length_drop] at hpos hle
          omega
        · rfl
    · exact ⟨rfl, Or.inl hplan⟩
  · exact ⟨rfl, Or.inl hplan⟩

/-- C2 (amended): when `find_plan` reaches the best-first search (goal
present and distinct from both the active action and the chosen start
action, no lock block) and the open set empties without reaching the
goal (`SearchResult.exhausted`), the call returns `Ok(false)`; the
stored plan has been cleared and the active action's task exited when an
action was active, and the planner is otherwise untouched (only the
verification ghost `searches` counts the search); when no action was
active, plan and memory are exactly as before. -/
theorem c2_search_failure {M CK AK S : Type} [DecidableEq CK] [DecidableEq AK]
    (p : Planner M CK AK S) (g : AK) (m mExit : M) (forced : Bool) (fuel : Nat)
    (start : AK)
    (hng : p.activeAction ≠ some g)
    (hlock : (match p.activeAction with
              | some id => !forced && (p.getAction id).task.isLocked m
              | none => false) = false)
    (hgoal : (alookup p.actions g).isNone = false)
    (hstart : p.findStartAction m = some start)
    (hsg : start ≠ g)
    (hmExit : mExit = p.exitActive m)
    (hsearch : searchLoop p.connections (fun id => (p.getAction id).cost mExit) g fuel
      { scores := [(start, (p.getAction start).cost mExit)]
        gscores := [(start, (p.getAction start).cost mExit)]
        openList := [((p.getAction start).cost mExit, start)]
        cameFrom := [] } = .exhausted) :
    p.findPlan (some g) m forced fuel =
      .ok ({ p with plan := if p.activeAction.isSome then none else p.plan
                    searches := p.searches + 1 }, mExit, false) := by
  subst hmExit
  unfold Planner.findPlan
  rw [if_neg hng, if_neg (by rw [hlock]; simp)]
  simp only [hgoal, Bool.false_eq_true, if_false, hstart]
  rw [if_neg hsg]
  unfold Planner.replan
  simp only []
  rw [hsearch]

/-- A goal selector with no state that never proposes a goal (the C2
planner is driven through `find_plan` directly). -/
def gsTrivial : GoalSelector Unit Unit Nat :=
  { decide := fun s m => (s, m, none)
    changeMind := fun s _ m => (s, m, true) }

/-- Action 0 of the C2 instance: precondition and postcondition `{0}`. -/
def actA : PlannerAction Unit Nat :=
  { preconditions := {0}, postconditions := {0}, cost := fun _ => 1, task := Task.noop Unit }

/-- Action 1 of the C2 instance: no preconditions, postcondition `{0}`. -/
def actB : PlannerAction Unit Nat :=
  { preconditions := ∅, postconditions := {0}, cost := fun _ => 1, task := Task.noop Unit }

/-- The C2 planner: exact-match connections over `actA`/`actB` leave the
goal action 1 unreachable from the start action 0, and a plan `[0]` is
currently active. -/
def pC2 : Planner Unit Nat Nat Unit :=
  { Planner.newUnchecked [(0, fun _ => true)] [(0, actA), (1, actB)] gsTrivial () true with
    plan := some (0, [0]) }

/-- Counterexample for C2 as stated: on `pC2`, `find_plan(Some 1)` runs
the search, the open set empties, and the call returns `Ok(false)` — but
the planner state is NOT unchanged: the stored plan was `Some((0,[0]))`
before the call and is `None` after it (the active action was exited and
the plan dropped before the search started). -/
theorem c2_search_failure_counterexample :
    pC2.plan = some (0, [0]) ∧
    (pC2.findPlan (some 1) () false 10).toOption.map (fun r => (r.1.plan, r.2.2)) =
      some (none, false) := by
  exact ⟨rfl, by decide⟩

/-- Witness for C2 (amended): the concrete failed search on `pC2`. -/
theorem c2_search_failure_witness :
    (pC2.activeAction ≠ some 1 ∧ pC2.findStartAction () = some 0 ∧
      searchLoop pC2.connections (fun id => (pC2.getAction id).cost ()) 1 10
        { scores := [(0, (pC2.getAction 0).cost ())]
          gscores := [(0, (pC2.getAction 0).cost ())]
          openList := [((pC2.getAction 0).cost (), 0)]
          cameFrom := [] } = .exhausted) ∧
    pC2.findPlan (some 1) () false 10 =
      .ok ({ pC2 with plan := if pC2.activeAction.isSome then none else pC2.plan
                      searches := pC2.searches + 1 }, (), false) :=
  ⟨⟨by decide, by decide, by decide⟩,
   c2_search_failure pC2 1 () () false 10 0 (by decide) (by decide) (by decide)
     (by decide) (by decide) rfl (by decide)⟩

/-- A goal selector that always proposes action 1. -/
def gsConst1 : GoalSelector Unit Unit Nat :=
  { decide := fun s m => (s, m, some 1)
    changeMind := fun s _ m => (s, m, true) }

/-- The C3 planner: plan `[0, 1]` toward goal 1 with cursor 0; its goal
selector keeps answering 1. -/
def pC3 : Planner Unit Nat Nat Unit :=
  { Planner.newUnchecked [(0, fun _ => true)] [(0, actA), (1, actB)] gsConst1 () true with
    plan := some (0, [0, 1]) }

/-- Witness for C3: on `pC3` the goal selector returns the stored goal,
and one `process` call leaves the search counter at 0 while only the
cursor may move. -/
theorem c3_plan_stability_witness :
    (pC3.plan = some (0, [0, 1]) ∧
      (pC3.goalSelector.decide pC3.gsState ()).2.2 = pC3.activeGoal) ∧
    ((pC3.process () 10).1.searches = pC3.searches ∧
     ((pC3.process () 10).1.plan = some (0, [0, 1]) ∨
      (pC3.process () 10).1.plan = some (0 + 1, [0, 1]) ∨
      (0 + 1 = ([0, 1] : List Nat).length ∧ (pC3.process () 10).1.plan = none))) :=
  ⟨⟨rfl, by decide⟩, c3_plan_stability pC3 () 10 0 [0, 1] rfl (by decide)⟩

/-- Witness for C9: the concrete planner `pC3` satisfies the invariant,
and the accessor consequences hold on it. -/
theorem c9_plan_invariant_witness :
    PlanInv pC3 ∧
    (pC3.activeAction.isSome ∧ pC3.activeGoal.isSome ∧ pC3.activePlan ≠ some []) := by
  have hinv : PlanInv pC3 := by
    intro c path h
    have h2 : (some ((0 : Nat), [0, 1]) : Option (Nat × List Nat)) = some (c, path) := h
    simp only [Option.some.injEq, Prod.mk.injEq] at h2
    obtain ⟨hc, hp⟩ := h2
    subst hc
    subst hp
    decide
  exact ⟨hinv, (c9_plan_invariant.2.2.2.2.2 pC3 hinv 0 [0, 1] rfl)⟩

end Emergent
